import Mathlib

/-!
Shallow embedding of the path-protector mutating admission webhook
(`webhook.go`, `record.go`) and proofs of its specified properties.

Documents decoded from JSON (`map[string]interface{}` in Go) are modelled
by the mutual inductive `JValue` / `JList` / `JFields`; the Go function
`reflect.DeepEqual` on such decoded documents is structural equality,
which is `=` (via the derived `DecidableEq`) on `JValue`.  JSON numbers
are abstracted as integers: no claim depends on numeric arithmetic, only
on (in)equality of decoded values.  A Go nil interface (a decoded JSON
null) is `JValue.null`.
-/

mutual
/-- A decoded JSON-like value: null, scalar, sequence, or string-keyed
mapping. -/
inductive JValue where
  | null
  | bool (b : Bool)
  | num (n : Int)
  | str (s : String)
  | arr (elems : JList)
  | obj (fields : JFields)
  deriving DecidableEq
/-- A decoded JSON sequence. -/
inductive JList where
  | nil
  | cons (head : JValue) (tail : JList)
  deriving DecidableEq
/-- A decoded string-keyed mapping, one binding per key (Go map decoded
from a JSON object). -/
inductive JFields where
  | nil
  | cons (key : String) (val : JValue) (tail : JFields)
  deriving DecidableEq
end

/-- `Record` models the Go declaration `type Record map[string]interface{}`: the top-level
view of a decoded document, a string-keyed mapping. -/
def Record : Type := JFields

instance : DecidableEq Record := by
  unfold Record
  infer_instance

/-- Key lookup in a decoded mapping: `val, ok := m[key]` on a Go map. -/
def lookupField (fields : JFields) (key : String) : Option JValue :=
  match fields with
  | JFields.nil => none
  | JFields.cons k v rest => if k = key then some v else lookupField rest key

/-- The loop body of `Record.Get` (`record.go` lines 20-29): walk the
remaining name parts, requiring each intermediate value to be a
string-keyed mapping (the `val.(map[string]interface{})` type assertion). -/
def Record.getLoop (val : JValue) : List String → Option JValue
  | [] => some val
  | namePart :: rest =>
    match val with
    | JValue.obj typedVal =>
      match lookupField typedVal namePart with
      | some v => Record.getLoop v rest
      | none => none
    | _ => none

/-- `Record.Get` (`record.go` lines 10-31): returns the value addressed by
`nameParts`, or not-found.  `none` models `(nil, false)`; `some v` models
`(v, true)`. -/
def Record.Get (r : Record) (nameParts : List String) : Option JValue :=
  match nameParts with
  | [] => none
  | first :: rest =>
    match lookupField r first with
    | some val => Record.getLoop val rest
    | none => none

/-- Helper for `goSplit`: consume the characters, cutting at each
separator; `acc` holds the current segment reversed. -/
def splitCharAux (sep : Char) : List Char → List Char → List String
  | [], acc => [String.mk acc.reverse]
  | c :: cs, acc =>
    if c = sep then String.mk acc.reverse :: splitCharAux sep cs []
    else splitCharAux sep cs (c :: acc)

/-- The Go function `strings.Split(s, sep)` for a one-character separator: the
segments between occurrences of `sep`, so `""` gives `[""]`, and leading,
trailing or doubled separators give empty segments. -/
def goSplit (sep : Char) (s : String) : List String := splitCharAux sep s.toList []

/-- The Go function `unicode.IsSpace` on the ASCII range (`\t`, `\n`, vertical tab,
form feed, `\r`, space); the annotation values of the webhook are ASCII, so the
Latin-1 additions are not modelled. -/
def goIsSpace (c : Char) : Bool :=
  c = ' ' ∨ c = '\t' ∨ c = '\n' ∨ c = '\x0b' ∨ c = '\x0c' ∨ c = '\r'

/-- The Go function `strings.TrimSpace`: remove leading and trailing whitespace. -/
def goTrimSpace (s : String) : String :=
  String.mk (((s.toList.dropWhile goIsSpace).reverse.dropWhile goIsSpace).reverse)

/-- The Go function `strings.Trim(s, "/")`: remove leading and trailing `/` runes. -/
def trimSlashes (s : String) : String :=
  String.mk (((s.toList.dropWhile (fun c => c = '/')).reverse.dropWhile
    (fun c => c = '/')).reverse)

/-- A JSON-Patch operation (`webhook.go` lines 64-68).  `value` is the Go
`interface{}` field; a Go nil interface (decoded JSON null) is
`JValue.null`. -/
structure patchOperation where
  op : String
  path : String
  value : JValue
deriving DecidableEq

/-- `json.Marshal` of one `patchOperation`, as the field list of the
resulting JSON object.  The `value` field is tagged `omitempty` and has
interface type, so `encoding/json` omits it exactly when the Go interface
is nil, i.e. when the decoded value is JSON null. -/
def marshalPatchOperation (p : patchOperation) : List (String × JValue) :=
  [("op", JValue.str p.op), ("path", JValue.str p.path)] ++
    (if p.value = JValue.null then [] else [("value", p.value)])

/-- `patchForPath` (`webhook.go` lines 122-154): the patch (zero or one
operation) required so that the value at `path` in `replacement` matches
`current`, when `current` already has one. -/
def patchForPath (path : String) (current replacement : Record) : List patchOperation :=
  let pathParts := goSplit '/' (trimSlashes path)
  match Record.Get current pathParts with
  | none => []
  | some currentV =>
    match Record.Get replacement pathParts with
    | some newV =>
      if currentV = newV then []
      else [{ op := "replace", path := path, value := currentV }]
    | none => [{ op := "add", path := path, value := currentV }]

/-- `EnabledLabel` (`webhook.go` line 28): label key that switches the
webhook on for an object. -/
def EnabledLabel : String := "path-protector.wish.com/enabled"

/-- `PathsAnnotationKey` (`webhook.go` line 31): annotation key holding the
comma-separated list of paths to protect. -/
def PathsAnnotationKey : String := "path-protector.wish.com/paths"

/-- `ignoredNamespaces` (`webhook.go` lines 47-50): `metav1.NamespaceSystem`
and `metav1.NamespacePublic`. -/
def ignoredNamespaces : List String := ["kube-system", "kube-public"]

/-- Lookup in a Go `map[string]string` (labels, annotations), modelled as
an association list with one binding per key. -/
def lookupStr (m : List (String × String)) (key : String) : Option String :=
  match m with
  | [] => none
  | (k, v) :: rest => if k = key then some v else lookupStr rest key

/-- The subset of `metav1.ObjectMeta` the webhook reads: namespace, name,
labels and annotations.  A Go nil map and an empty map are both the empty
list (lookup misses either way; `mutationRequired` lines 101-104 already
replaces nil annotations by an empty map). -/
structure ObjectMeta where
  nspace : String
  name : String
  labels : List (String × String)
  annots : List (String × String)
deriving DecidableEq

/-- The Go function `strconv.ParseBool`: accepts exactly the listed forms, any other
input yields the error `strconv.ParseBool: parsing "<input>": invalid
syntax` (the `%q` verb shown for inputs without escape-worthy characters). -/
def strconvParseBool (s : String) : Except String Bool :=
  if s = "1" ∨ s = "t" ∨ s = "T" ∨ s = "true" ∨ s = "TRUE" ∨ s = "True" then
    Except.ok true
  else if s = "0" ∨ s = "f" ∨ s = "F" ∨ s = "false" ∨ s = "FALSE" ∨ s = "False" then
    Except.ok false
  else
    Except.error ("strconv.ParseBool: parsing \"" ++ s ++ "\": invalid syntax")

/-- The sentinel errors of `webhook.go` lines 42-44, plus the wrapped
`strconv.ParseBool` error returned at line 95. -/
inductive MutError where
  | errIgnoredNamespace
  | errNoLabel
  | errLabelDisabled
  | parseBoolErr (msg : String)
deriving DecidableEq

/-- `err.Error()` for each `MutError`. -/
def MutError.message : MutError → String
  | MutError.errIgnoredNamespace => "Ignored namespace for mutation"
  | MutError.errNoLabel => "Missing label: " ++ EnabledLabel
  | MutError.errLabelDisabled => "Label disabled execution"
  | MutError.parseBoolErr msg => msg

/-- `mutationRequired` (`webhook.go` lines 79-118): decides whether the
object is eligible and resolves the protected paths.  `Except.ok paths`
models `(paths, nil)`; the Go `nil, nil` return for a missing paths
annotation is `Except.ok []` (a nil slice has length 0). -/
def mutationRequired (ignoredList : List String) (metadata : ObjectMeta) :
    Except MutError (List String) :=
  if metadata.nspace ∈ ignoredList then
    Except.error MutError.errIgnoredNamespace
  else
    match lookupStr metadata.labels EnabledLabel with
    | none => Except.error MutError.errNoLabel
    | some v =>
      match strconvParseBool v with
      | Except.error e => Except.error (MutError.parseBoolErr e)
      | Except.ok false => Except.error MutError.errLabelDisabled
      | Except.ok true =>
        match lookupStr metadata.annots PathsAnnotationKey with
        | none => Except.ok []
        | some paths => Except.ok ((goSplit ',' paths).map goTrimSpace)

/-- Decode result of `req.Object.Raw` (`webhook.go` lines 158-166 and
220-227).  The same bytes are unmarshalled twice: into `objectWithMeta`
(metadata only) and into `map[string]interface{}`; when the struct decode
succeeds the raw bytes are a JSON object (or null, which carries no labels
and never reaches the map decode), so the map decode of the same bytes
also succeeds and both views are carried together. -/
structure DecodedObject where
  meta : ObjectMeta
  doc : Record
deriving DecidableEq

/-- Decode result of the optional `req.OldObject.Raw` (`webhook.go` lines
208-218): absent (`Raw == nil`, leaving a nil map), malformed bytes with
the error text of the decoder, or a decoded document. -/
inductive OldPayload where
  | absent
  | malformed (msg : String)
  | decoded (doc : Record)
deriving DecidableEq

/-- `webhook.go` lines 208-218: the old record is the decoded old object,
an empty mapping when the old payload is absent, or a decode error. -/
def decodeOldPayload : OldPayload → Except String Record
  | OldPayload.absent => Except.ok JFields.nil
  | OldPayload.malformed msg => Except.error msg
  | OldPayload.decoded doc => Except.ok doc

/-- `v1beta1.AdmissionRequest`, restricted to the fields `mutate` reads:
the new-object payload (given as its decode outcome, with the error text of
the decoder when the bytes are malformed or empty) and the optional
old-object payload. -/
structure AdmissionRequest where
  object : Except String DecodedObject
  oldObject : OldPayload

/-- `v1beta1.AdmissionResponse`, restricted to the fields `mutate` writes:
`Allowed` (Go zero value `false` when omitted), `Result.Message` (`none`
when no `Result` is set) and the JSON-Patch payload (`none` when no
`Patch` is set; the code always sets `PatchType` to JSONPatch alongside a
patch, so it is not modelled separately). -/
structure AdmissionResponse where
  allowed : Bool := false
  message : Option String := none
  patch : Option (List patchOperation) := none
deriving DecidableEq

/-- `WebhookServer.mutate` (`webhook.go` lines 157-260): the main mutation
process. -/
def mutate (req : AdmissionRequest) : AdmissionResponse :=
  match req.object with
  | Except.error msg => { message := some msg }
  | Except.ok newManifest =>
    match mutationRequired ignoredNamespaces newManifest.meta with
    | Except.error MutError.errIgnoredNamespace => { allowed := true }
    | Except.error MutError.errNoLabel => { allowed := true }
    | Except.error MutError.errLabelDisabled => { allowed := true }
    | Except.error (MutError.parseBoolErr msg) => { message := some msg }
    | Except.ok paths =>
      if paths.length = 0 then
        { allowed := true }
      else
        match decodeOldPayload req.oldObject with
        | Except.error msg => { message := some msg }
        | Except.ok currentMap =>
          let patches :=
            paths.flatMap (fun path => patchForPath path currentMap newManifest.doc)
          if patches.length = 0 then
            { allowed := true }
          else
            { allowed := true, patch := some patches }

/-! ## Specification-side definitions -/

/-- Follows the wording of the spec (§4.2, Structured Record): walk the nested
mapping one segment at a time; at each step the current value must be a
string-keyed mapping, and any type mismatch or key miss is not-found; once
all segments are consumed the current value is the result. -/
def getSpecWalk (current : JValue) : List String → Option JValue
  | [] => some current
  | seg :: rest =>
    match current with
    | JValue.obj fields =>
      match lookupField fields seg with
      | some v => getSpecWalk v rest
      | none => none
    | _ => none

/-- Follows the wording of the spec (§4.2): empty `pathSegments` is not found;
otherwise walk the record (itself a mapping) through all the segments. -/
def Record.getSpec (r : Record) (pathSegments : List String) : Option JValue :=
  match pathSegments with
  | [] => none
  | _ :: _ => getSpecWalk (JValue.obj r) pathSegments

/-! ## Helper lemmas -/

theorem getLoop_eq_getSpecWalk (parts : List String) : ∀ val : JValue,
    Record.getLoop val parts = getSpecWalk val parts := by
  induction parts with
  | nil => intro val; rfl
  | cons p rest ih =>
    intro val
    cases val with
    | obj fields =>
      simp only [Record.getLoop, getSpecWalk]
      cases lookupField fields p with
      | none => rfl
      | some v => exact ih v
    | null => rfl
    | bool b => rfl
    | num n => rfl
    | str s => rfl
    | arr l => rfl

theorem patchForPath_mem (path : String) (current replacement : Record)
    (op : patchOperation) (h : op ∈ patchForPath path current replacement) :
    op.path = path ∧ op.value ∈ Record.Get current (goSplit '/' (trimSlashes path)) ∧
      (op.op = "add" ∨ op.op = "replace") := by
  simp only [patchForPath] at h
  split at h
  · simp at h
  · rename_i currentV hcur
    split at h
    · rename_i newV hnew
      split at h
      · simp at h
      · simp only [List.mem_singleton] at h
        subst h
        exact ⟨rfl, by simp [hcur], Or.inr rfl⟩
    · simp only [List.mem_singleton] at h
      subst h
      exact ⟨rfl, by simp [hcur], Or.inl rfl⟩

theorem patchForPath_length (path : String) (current replacement : Record) :
    (patchForPath path current replacement).length ≤ 1 := by
  simp only [patchForPath]
  split
  · simp
  · split
    · split <;> simp
    · simp

/-! ## Claim theorems -/

/-- C9: `Record.Get` returns not-found on an empty segment list; walking
the segments, it returns not-found if an intermediate value reached before
all segments are consumed is not a string-keyed mapping or if a key lookup
misses, and otherwise returns the terminal value: on every record and
segment list it agrees with `Record.getSpec`, the direct transcription of
the walk described in the spec. -/
theorem recordGet_refines_getSpec (r : Record) (nameParts : List String) :
    Record.Get r nameParts = Record.getSpec r nameParts := by
  cases nameParts with
  | nil => rfl
  | cons first rest =>
    simp only [Record.Get, Record.getSpec, getSpecWalk]
    cases lookupField r first with
    | none => rfl
    | some val => exact getLoop_eq_getSpecWalk rest val

/-- C1: a patch operation is emitted only when the old document has a
value at the path; its value is then the old value, its op is `"add"`
when the new document lacks the path and `"replace"` when the new value
differs structurally, and nothing is emitted exactly when the old document
lacks the path or the new value is structurally equal to the old one. -/
theorem patchForPath_emission (path : String) (current replacement : Record) :
    (∀ op ∈ patchForPath path current replacement,
      ∃ v, Record.Get current (goSplit '/' (trimSlashes path)) = some v ∧
        op.value = v ∧ op.path = path ∧
        ((Record.Get replacement (goSplit '/' (trimSlashes path)) = none ∧ op.op = "add") ∨
         (∃ w, Record.Get replacement (goSplit '/' (trimSlashes path)) = some w ∧
            w ≠ v ∧ op.op = "replace")))
    ∧ (patchForPath path current replacement = [] ↔
        (Record.Get current (goSplit '/' (trimSlashes path)) = none ∨
         Record.Get replacement (goSplit '/' (trimSlashes path)) =
           Record.Get current (goSplit '/' (trimSlashes path)))) := by
  constructor
  · intro op hop
    simp only [patchForPath] at hop
    split at hop
    · simp at hop
    · rename_i currentV hcur
      split at hop
      · rename_i newV hnew
        split at hop
        · simp at hop
        · rename_i hne
          simp only [List.mem_singleton] at hop
          subst hop
          exact ⟨currentV, hcur, rfl, rfl, Or.inr ⟨newV, hnew, fun h => hne h.symm, rfl⟩⟩
      · rename_i hnew
        simp only [List.mem_singleton] at hop
        subst hop
        exact ⟨currentV, hcur, rfl, rfl, Or.inl ⟨hnew, rfl⟩⟩
  · simp only [patchForPath]
    split
    · rename_i hcur
      simp [hcur]
    · rename_i currentV hcur
      split
      · rename_i newV hnew
        split
        · rename_i heq
          subst heq
          simp [hcur, hnew]
        · rename_i hne
          simp [hcur, hnew, Ne.symm hne]
      · rename_i hnew
        simp [hcur, hnew]

/-- Old document `{"spec": {"replicas": 10}}` for the C1 witness. -/
def recC1old : Record :=
  JFields.cons "spec" (JValue.obj (JFields.cons "replicas" (JValue.num 10) JFields.nil)) JFields.nil

/-- New document `{"spec": {"replicas": 1}}` for the C1 witness. -/
def recC1new : Record :=
  JFields.cons "spec" (JValue.obj (JFields.cons "replicas" (JValue.num 1) JFields.nil)) JFields.nil

/-- The operation emitted for `/spec/replicas` in the C1 witness. -/
def opC1 : patchOperation := { op := "replace", path := "/spec/replicas", value := JValue.num 10 }

/-- Witness for C1: concrete replace emission for `/spec/replicas`. -/
theorem patchForPath_emission_witness :
    ∃ v, Record.Get recC1old (goSplit '/' (trimSlashes "/spec/replicas")) = some v ∧
      opC1.value = v ∧ opC1.path = "/spec/replicas" ∧
      ((Record.Get recC1new (goSplit '/' (trimSlashes "/spec/replicas")) = none ∧
          opC1.op = "add") ∨
       (∃ w, Record.Get recC1new (goSplit '/' (trimSlashes "/spec/replicas")) = some w ∧
          w ≠ v ∧ opC1.op = "replace")) :=
  (patchForPath_emission "/spec/replicas" recC1old recC1new).1 opC1 (by decide)

/-- C10: when the old document holds JSON null at the protected path (a
null terminal value counts as found) and the new document lacks the path
or holds a non-null value there, a patch operation is still emitted, but
its marshalled JSON object omits the `value` member because of
`omitempty` on the nil interface. -/
theorem nullValue_patch_omits_value (path : String) (current replacement : Record)
    (hcur : Record.Get current (goSplit '/' (trimSlashes path)) = some JValue.null)
    (hnew : Record.Get replacement (goSplit '/' (trimSlashes path)) ≠ some JValue.null) :
    ∃ op, patchForPath path current replacement = [op] ∧ op.value = JValue.null ∧
      marshalPatchOperation op = [("op", JValue.str op.op), ("path", JValue.str path)] := by
  simp only [patchForPath, hcur]
  split
  · rename_i newV hrep
    have hne : ¬(JValue.null = newV) := fun h => hnew (by rw [← h] at hrep; exact hrep)
    rw [if_neg hne]
    exact ⟨_, rfl, rfl, by simp [marshalPatchOperation]⟩
  · exact ⟨_, rfl, rfl, by simp [marshalPatchOperation]⟩

/-- Old document `{"spec": {"x": null}}` for the C10 witness. -/
def recC10old : Record :=
  JFields.cons "spec" (JValue.obj (JFields.cons "x" JValue.null JFields.nil)) JFields.nil

/-- New document `{"spec": {}}` for the C10 witness. -/
def recC10new : Record :=
  JFields.cons "spec" (JValue.obj JFields.nil) JFields.nil

/-- Witness for C10: the null value at `/spec/x` is found, an operation is
emitted, and its marshalled form has no `value` member. -/
theorem nullValue_patch_omits_value_witness :
    ∃ op, patchForPath "/spec/x" recC10old recC10new = [op] ∧ op.value = JValue.null ∧
      marshalPatchOperation op = [("op", JValue.str op.op), ("path", JValue.str "/spec/x")] :=
  nullValue_patch_omits_value "/spec/x" recC10old recC10new (by decide) (by decide)

/-! ## Helper lemmas about `mutate` -/

theorem mutate_obj_error (req : AdmissionRequest) (msg : String)
    (h : req.object = Except.error msg) :
    mutate req = { allowed := false, message := some msg, patch := none } := by
  simp only [mutate, h]

theorem mutate_skip_ignoredNamespace (req : AdmissionRequest) (m : DecodedObject)
    (hobj : req.object = Except.ok m)
    (hmr : mutationRequired ignoredNamespaces m.meta = Except.error MutError.errIgnoredNamespace) :
    mutate req = { allowed := true, message := none, patch := none } := by
  simp only [mutate, hobj, hmr]

theorem mutate_skip_noLabel (req : AdmissionRequest) (m : DecodedObject)
    (hobj : req.object = Except.ok m)
    (hmr : mutationRequired ignoredNamespaces m.meta = Except.error MutError.errNoLabel) :
    mutate req = { allowed := true, message := none, patch := none } := by
  simp only [mutate, hobj, hmr]

theorem mutate_skip_labelDisabled (req : AdmissionRequest) (m : DecodedObject)
    (hobj : req.object = Except.ok m)
    (hmr : mutationRequired ignoredNamespaces m.meta = Except.error MutError.errLabelDisabled) :
    mutate req = { allowed := true, message := none, patch := none } := by
  simp only [mutate, hobj, hmr]

theorem mutate_parse_error (req : AdmissionRequest) (m : DecodedObject) (msg : String)
    (hobj : req.object = Except.ok m)
    (hmr : mutationRequired ignoredNamespaces m.meta =
      Except.error (MutError.parseBoolErr msg)) :
    mutate req = { allowed := false, message := some msg, patch := none } := by
  simp only [mutate, hobj, hmr]

theorem mutate_paths_empty (req : AdmissionRequest) (m : DecodedObject)
    (hobj : req.object = Except.ok m)
    (hmr : mutationRequired ignoredNamespaces m.meta = Except.ok []) :
    mutate req = { allowed := true, message := none, patch := none } := by
  simp [mutate, hobj, hmr]

theorem mutate_old_malformed (req : AdmissionRequest) (m : DecodedObject)
    (paths : List String) (msg : String)
    (hobj : req.object = Except.ok m)
    (hmr : mutationRequired ignoredNamespaces m.meta = Except.ok paths)
    (hne : paths ≠ [])
    (holdp : req.oldObject = OldPayload.malformed msg) :
    mutate req = { allowed := false, message := some msg, patch := none } := by
  have hlen : ¬paths.length = 0 := fun h => hne (List.length_eq_zero.mp h)
  simp only [mutate, hobj, hmr, holdp, if_neg hlen, decodeOldPayload]

theorem mutate_run (req : AdmissionRequest) (m : DecodedObject)
    (paths : List String) (cur : Record)
    (hobj : req.object = Except.ok m)
    (hmr : mutationRequired ignoredNamespaces m.meta = Except.ok paths)
    (hne : paths ≠ [])
    (hold : decodeOldPayload req.oldObject = Except.ok cur) :
    mutate req =
      (if (paths.flatMap fun path => patchForPath path cur m.doc).length = 0 then
        { allowed := true, message := none, patch := none }
      else
        { allowed := true, message := none,
          patch := some (paths.flatMap fun path => patchForPath path cur m.doc) }) := by
  have hlen : ¬paths.length = 0 := fun h => hne (List.length_eq_zero.mp h)
  simp only [mutate, hobj, hmr, if_neg hlen, hold]

theorem mutate_patch_eq_flatMap (req : AdmissionRequest) (m : DecodedObject)
    (paths : List String) (cur : Record) (ps : List patchOperation)
    (hobj : req.object = Except.ok m)
    (hmr : mutationRequired ignoredNamespaces m.meta = Except.ok paths)
    (hne : paths ≠ [])
    (hold : decodeOldPayload req.oldObject = Except.ok cur)
    (hps : (mutate req).patch = some ps) :
    ps = paths.flatMap fun path => patchForPath path cur m.doc := by
  rw [mutate_run req m paths cur hobj hmr hne hold] at hps
  split at hps
  · simp at hps
  · simpa using hps.symm

/-- C7: every patch operation that `mutate` ever emits, for any request,
has op `"add"` or `"replace"`; a `"remove"` operation is never emitted. -/
theorem emitted_op_add_or_replace (req : AdmissionRequest) (ps : List patchOperation)
    (op : patchOperation) (hps : (mutate req).patch = some ps) (hop : op ∈ ps) :
    op.op = "add" ∨ op.op = "replace" := by
  cases hobj : req.object with
  | error msg =>
    rw [mutate_obj_error req msg hobj] at hps
    simp at hps
  | ok m =>
    cases hmr : mutationRequired ignoredNamespaces m.meta with
    | error e =>
      cases e with
      | errIgnoredNamespace =>
        rw [mutate_skip_ignoredNamespace req m hobj hmr] at hps
        simp at hps
      | errNoLabel =>
        rw [mutate_skip_noLabel req m hobj hmr] at hps
        simp at hps
      | errLabelDisabled =>
        rw [mutate_skip_labelDisabled req m hobj hmr] at hps
        simp at hps
      | parseBoolErr msg =>
        rw [mutate_parse_error req m msg hobj hmr] at hps
        simp at hps
    | ok paths =>
      by_cases hne : paths = []
      · subst hne
        rw [mutate_paths_empty req m hobj hmr] at hps
        simp at hps
      · cases holdp : req.oldObject with
        | malformed msg =>
          rw [mutate_old_malformed req m paths msg hobj hmr hne holdp] at hps
          simp at hps
        | absent =>
          have hold : decodeOldPayload req.oldObject = Except.ok JFields.nil := by
            rw [holdp]
            rfl
          rw [mutate_patch_eq_flatMap req m paths JFields.nil ps hobj hmr hne hold hps] at hop
          obtain ⟨path, _, hopmem⟩ := List.mem_flatMap.mp hop
          exact (patchForPath_mem path JFields.nil m.doc op hopmem).2.2
        | decoded doc =>
          have hold : decodeOldPayload req.oldObject = Except.ok doc := by
            rw [holdp]
            rfl
          rw [mutate_patch_eq_flatMap req m paths doc ps hobj hmr hne hold hps] at hop
          obtain ⟨path, _, hopmem⟩ := List.mem_flatMap.mp hop
          exact (patchForPath_mem path doc m.doc op hopmem).2.2

/-- Metadata for the C7 witness: enabled label, one protected path. -/
def metaC7 : ObjectMeta :=
  { nspace := "testns", name := "testdeployment",
    labels := [(EnabledLabel, "true")],
    annots := [(PathsAnnotationKey, "/spec/replicas")] }

/-- Old document `{"spec": {"replicas": 10}}` for the C7 witness. -/
def recC7old : Record :=
  JFields.cons "spec" (JValue.obj (JFields.cons "replicas" (JValue.num 10) JFields.nil)) JFields.nil

/-- New document `{"spec": {}}` for the C7 witness. -/
def recC7new : Record :=
  JFields.cons "spec" (JValue.obj JFields.nil) JFields.nil

/-- Request for the C7 witness. -/
def reqC7 : AdmissionRequest :=
  { object := Except.ok { meta := metaC7, doc := recC7new },
    oldObject := OldPayload.decoded recC7old }

/-- The operation `mutate` emits on the C7 witness request. -/
def opC7 : patchOperation := { op := "add", path := "/spec/replicas", value := JValue.num 10 }

/-- Witness for C7: the concrete emitted operation is add-or-replace. -/
theorem emitted_op_add_or_replace_witness : opC7.op = "add" ∨ opC7.op = "replace" :=
  emitted_op_add_or_replace reqC7 [opC7] opC7 (by decide) (by decide)

theorem flatMap_patch_sublist (cur newDoc : Record) (paths : List String) :
    ((paths.flatMap fun p => patchForPath p cur newDoc).map patchOperation.path).Sublist
      paths := by
  induction paths with
  | nil => simp
  | cons p rest ih =>
    simp only [List.flatMap_cons, List.map_append]
    cases hfp : patchForPath p cur newDoc with
    | nil => simpa using ih.cons p
    | cons op tl =>
      have hlen := patchForPath_length p cur newDoc
      rw [hfp] at hlen
      have h0 : tl.length = 0 := by
        simp only [List.length_cons] at hlen
        omega
      have htl := List.length_eq_zero.mp h0
      subst htl
      have hpath : op.path = p :=
        (patchForPath_mem p cur newDoc op (by rw [hfp]; exact List.mem_singleton.mpr rfl)).1
      simp only [List.map_cons, List.map_nil, List.cons_append, List.nil_append]
      rw [hpath]
      exact ih.cons₂ p

/-- C8: for an eligible request, the emitted patch list has at most one
operation per protected path and the paths of the operations form an
order-preserving selection (a sublist) of the declared path list, so
patches appear in exactly the order their paths were declared. -/
theorem emitted_patches_ordered (req : AdmissionRequest) (m : DecodedObject)
    (paths : List String) (cur : Record) (ps : List patchOperation)
    (hobj : req.object = Except.ok m)
    (hmr : mutationRequired ignoredNamespaces m.meta = Except.ok paths)
    (hold : decodeOldPayload req.oldObject = Except.ok cur)
    (hps : (mutate req).patch = some ps) :
    (∀ path, (patchForPath path cur m.doc).length ≤ 1) ∧
      (ps.map patchOperation.path).Sublist paths := by
  refine ⟨fun path => patchForPath_length path cur m.doc, ?_⟩
  by_cases hne : paths = []
  · subst hne
    rw [mutate_paths_empty req m hobj hmr] at hps
    simp at hps
  · rw [mutate_patch_eq_flatMap req m paths cur ps hobj hmr hne hold hps]
    exact flatMap_patch_sublist cur m.doc paths

/-- Metadata for the C8 witness: enabled label, two protected paths. -/
def metaC8 : ObjectMeta :=
  { nspace := "testns", name := "testdeployment",
    labels := [(EnabledLabel, "true"), ("testlabel", "new")],
    annots := [(PathsAnnotationKey, "/spec/replicas, /metadata/labels/testlabel")] }

/-- Old document with `spec.replicas = 10` and `metadata.labels.testlabel
= "existing"` for the C8 witness. -/
def recC8old : Record :=
  JFields.cons "metadata"
    (JValue.obj (JFields.cons "labels"
      (JValue.obj (JFields.cons "testlabel" (JValue.str "existing") JFields.nil))
      JFields.nil))
    (JFields.cons "spec"
      (JValue.obj (JFields.cons "replicas" (JValue.num 10) JFields.nil)) JFields.nil)

/-- New document with `spec.replicas = 1` and `metadata.labels.testlabel
= "new"` for the C8 witness: both protected paths differ. -/
def recC8new : Record :=
  JFields.cons "metadata"
    (JValue.obj (JFields.cons "labels"
      (JValue.obj (JFields.cons "testlabel" (JValue.str "new") JFields.nil))
      JFields.nil))
    (JFields.cons "spec"
      (JValue.obj (JFields.cons "replicas" (JValue.num 1) JFields.nil)) JFields.nil)

/-- Request for the C8 witness. -/
def reqC8 : AdmissionRequest :=
  { object := Except.ok { meta := metaC8, doc := recC8new },
    oldObject := OldPayload.decoded recC8old }

/-- First operation emitted on the C8 witness request. -/
def opC8a : patchOperation :=
  { op := "replace", path := "/spec/replicas", value := JValue.num 10 }

/-- Second operation emitted on the C8 witness request. -/
def opC8b : patchOperation :=
  { op := "replace", path := "/metadata/labels/testlabel", value := JValue.str "existing" }

/-- Witness for C8: the two-path scenario emits exactly the two
operations, in annotation declaration order (the discharged hypothesis
evaluates `mutate` to exactly `[opC8a, opC8b]`). -/
theorem emitted_patches_ordered_witness :
    (∀ path, (patchForPath path recC8old recC8new).length ≤ 1) ∧
      (([opC8a, opC8b].map patchOperation.path).Sublist
        ["/spec/replicas", "/metadata/labels/testlabel"]) :=
  emitted_patches_ordered reqC8 { meta := metaC8, doc := recC8new }
    ["/spec/replicas", "/metadata/labels/testlabel"] recC8old [opC8a, opC8b]
    rfl rfl rfl (by decide)

/-- Counterexample to C2 as stated: on a malformed new-object payload
(empty bytes, decode error "unexpected end of JSON input") the response
returned by `mutate` is not an allowed response — its `Allowed` field is
the Go zero value `false`. -/
theorem mutate_failure_not_allowed_cex :
    (mutate { object := Except.error "unexpected end of JSON input",
              oldObject := OldPayload.absent }).allowed = false := by
  decide

/-- C2 (amended): on every internal failure — malformed new-object
payload, unparseable enabling-label boolean, or malformed old-object
payload reached after path resolution — `mutate` returns a response that
carries no patch and carries the error message, with `allowed = false`
(the response itself does not mark the request allowed; fail-open relies
on the failure policy of the webhook deployment downstream). -/
theorem mutate_internal_failure_response (req : AdmissionRequest) (msg : String)
    (h : req.object = Except.error msg
      ∨ (∃ m, req.object = Except.ok m ∧
          mutationRequired ignoredNamespaces m.meta =
            Except.error (MutError.parseBoolErr msg))
      ∨ (∃ m paths, req.object = Except.ok m ∧
          mutationRequired ignoredNamespaces m.meta = Except.ok paths ∧ paths ≠ [] ∧
          req.oldObject = OldPayload.malformed msg)) :
    mutate req = { allowed := false, message := some msg, patch := none } := by
  rcases h with h | ⟨m, hobj, hmr⟩ | ⟨m, paths, hobj, hmr, hne, holdp⟩
  · exact mutate_obj_error req msg h
  · exact mutate_parse_error req m msg hobj hmr
  · exact mutate_old_malformed req m paths msg hobj hmr hne holdp

/-- Witness for the amended C2: the malformed-new-payload case. -/
theorem mutate_internal_failure_response_witness :
    mutate { object := Except.error "unexpected end of JSON input",
             oldObject := OldPayload.absent } =
      { allowed := false, message := some "unexpected end of JSON input", patch := none } :=
  mutate_internal_failure_response
    { object := Except.error "unexpected end of JSON input",
      oldObject := OldPayload.absent }
    "unexpected end of JSON input" (Or.inl rfl)

/-- C3: on a malformed or empty new-object payload, the outcome carries
exactly the error text of the decoder as its message and no patch operations. -/
theorem malformed_new_payload_rejected (req : AdmissionRequest) (msg : String)
    (h : req.object = Except.error msg) :
    mutate req = { allowed := false, message := some msg, patch := none } :=
  mutate_obj_error req msg h

/-- Witness for C3: the empty payload (`json.Unmarshal` of no bytes). -/
theorem malformed_new_payload_rejected_witness :
    mutate { object := Except.error "unexpected end of JSON input",
             oldObject := OldPayload.decoded JFields.nil } =
      { allowed := false, message := some "unexpected end of JSON input", patch := none } :=
  malformed_new_payload_rejected
    { object := Except.error "unexpected end of JSON input",
      oldObject := OldPayload.decoded JFields.nil }
    "unexpected end of JSON input" rfl

/-- C4: when the new object decodes and its namespace is one of the
ignored namespaces, `mutate` answers allowed with no patch and no message,
whatever labels and annotations the object carries. -/
theorem ignored_namespace_allowed (req : AdmissionRequest) (m : DecodedObject)
    (hobj : req.object = Except.ok m)
    (hns : m.meta.nspace ∈ ignoredNamespaces) :
    mutate req = { allowed := true, message := none, patch := none } := by
  have hmr : mutationRequired ignoredNamespaces m.meta =
      Except.error MutError.errIgnoredNamespace := by
    unfold mutationRequired
    rw [if_pos hns]
  exact mutate_skip_ignoredNamespace req m hobj hmr

/-- Metadata for the C4 witness: ignored namespace, yet enabling label
true and a paths annotation present. -/
def metaC4 : ObjectMeta :=
  { nspace := "kube-system", name := "sysobj",
    labels := [(EnabledLabel, "true")],
    annots := [(PathsAnnotationKey, "/spec/replicas")] }

/-- Witness for C4: the namespace check wins over labels and annotations. -/
theorem ignored_namespace_allowed_witness :
    mutate { object := Except.ok { meta := metaC4, doc := JFields.nil },
             oldObject := OldPayload.absent } =
      { allowed := true, message := none, patch := none } :=
  ignored_namespace_allowed
    { object := Except.ok { meta := metaC4, doc := JFields.nil },
      oldObject := OldPayload.absent }
    { meta := metaC4, doc := JFields.nil } rfl (by decide)

/-- C5: when the new object decodes, the namespace is not ignored and the
enabling label is present but its value fails boolean parsing, `mutate`
answers with the error text of the parser as message and no patches (a hard
failure, not a skip). -/
theorem malformed_label_rejected (req : AdmissionRequest) (m : DecodedObject)
    (v msg : String)
    (hobj : req.object = Except.ok m)
    (hns : m.meta.nspace ∉ ignoredNamespaces)
    (hlab : lookupStr m.meta.labels EnabledLabel = some v)
    (hparse : strconvParseBool v = Except.error msg) :
    mutate req = { allowed := false, message := some msg, patch := none } := by
  have hmr : mutationRequired ignoredNamespaces m.meta =
      Except.error (MutError.parseBoolErr msg) := by
    simp only [mutationRequired, if_neg hns, hlab, hparse]
  exact mutate_parse_error req m msg hobj hmr

/-- Metadata for the C5 witness: the `"NOTABOOL"` label value of the
test of the repository. -/
def metaC5 : ObjectMeta :=
  { nspace := "", name := "", labels := [(EnabledLabel, "NOTABOOL")], annots := [] }

/-- Witness for C5: `"NOTABOOL"` yields the `strconv.ParseBool` error
text as the response message. -/
theorem malformed_label_rejected_witness :
    mutate { object := Except.ok { meta := metaC5, doc := JFields.nil },
             oldObject := OldPayload.absent } =
      { allowed := false,
        message := some "strconv.ParseBool: parsing \"NOTABOOL\": invalid syntax",
        patch := none } :=
  malformed_label_rejected
    { object := Except.ok { meta := metaC5, doc := JFields.nil },
      oldObject := OldPayload.absent }
    { meta := metaC5, doc := JFields.nil } "NOTABOOL"
    "strconv.ParseBool: parsing \"NOTABOOL\": invalid syntax"
    rfl (by decide) (by decide) rfl

/-- C6: for an eligible object (namespace not ignored, enabling label
parses true), a present paths annotation resolves to exactly its value
split on commas with each element whitespace-trimmed (order preserved, no
element dropped, empty strings kept), and an absent annotation resolves to
the empty path set with outcome allowed-no-patch. -/
theorem resolved_protected_paths (req : AdmissionRequest) (m : DecodedObject)
    (v : String)
    (hobj : req.object = Except.ok m)
    (hns : m.meta.nspace ∉ ignoredNamespaces)
    (hlab : lookupStr m.meta.labels EnabledLabel = some v)
    (hparse : strconvParseBool v = Except.ok true) :
    (∀ a, lookupStr m.meta.annots PathsAnnotationKey = some a →
      mutationRequired ignoredNamespaces m.meta =
        Except.ok ((goSplit ',' a).map goTrimSpace)) ∧
    (lookupStr m.meta.annots PathsAnnotationKey = none →
      mutationRequired ignoredNamespaces m.meta = Except.ok [] ∧
        mutate req = { allowed := true, message := none, patch := none }) := by
  constructor
  · intro a ha
    simp only [mutationRequired, if_neg hns, hlab, hparse, ha]
  · intro ha
    have hmr : mutationRequired ignoredNamespaces m.meta = Except.ok [] := by
      simp only [mutationRequired, if_neg hns, hlab, hparse, ha]
    exact ⟨hmr, mutate_paths_empty req m hobj hmr⟩

/-- Metadata for the C6 witness: a paths annotation with a doubled comma
and stray spaces, exercising trimming and empty-segment passthrough. -/
def metaC6 : ObjectMeta :=
  { nspace := "testns", name := "t",
    labels := [(EnabledLabel, "true")],
    annots := [(PathsAnnotationKey, "/spec/replicas,, /metadata/name ")] }

/-- Witness for C6: the annotation resolves to the comma-split,
trimmed segments (including the empty segment from the doubled comma). -/
theorem resolved_protected_paths_witness :
    mutationRequired ignoredNamespaces metaC6 =
      Except.ok ((goSplit ',' "/spec/replicas,, /metadata/name ").map goTrimSpace) :=
  (resolved_protected_paths
    { object := Except.ok { meta := metaC6, doc := JFields.nil },
      oldObject := OldPayload.absent }
    { meta := metaC6, doc := JFields.nil } "true"
    rfl (by decide) (by decide) rfl).1
    "/spec/replicas,, /metadata/name " (by decide)
